import Mathlib

/-!
Verification development for the LiveKit WebRTC source element
(`net/webrtc/src/webrtcsrc/livekitwebrtcsrc/imp.rs`).

The Rust module is shallowly embedded: GStreamer caps structures become
association lists of fields, the element's externally visible effects
(transceiver creation, description setting, signalling, logging, panics)
become an explicit `Effect` trace, and the element's mutable state
(`Settings`/`State`/pad list/counters) becomes an `ElemState` record acted
on by a `step` function, one `Op` per callback of the source.
-/

/- ## Strings and field lists (gst::Structure model) -/

/-- Model of Rust's `str::starts_with`: character-list prefix test. -/
def strStartsWith (s pre : String) : Bool :=
  pre.data.isPrefixOf s.data

/-- Model of a GLib value stored in a caps structure or promise reply field. -/
inductive GValue where
  | str (s : String)
  | int (n : Int)
  | other (tag : String)
deriving DecidableEq, Repr

abbrev Fields := List (String × GValue)

/-- Model of `gst::Structure::set` on one field: replace the value if the key
is present, otherwise append the field. -/
def setField (fields : Fields) (k : String) (v : GValue) : Fields :=
  if fields.any (fun p => p.1 == k) then
    fields.map (fun p => if p.1 == k then (k, v) else p)
  else
    fields ++ [(k, v)]

/-- Model of `gst::Structure::extend`: set every field of `l` in turn. -/
def extendFields (base l : Fields) : Fields :=
  l.foldl (fun acc p => setField acc p.1 p.2) base

/-- `s.get::<&str>(k)`: succeeds only when the field exists and holds a string. -/
def getStrField (fields : Fields) (k : String) : Option String :=
  match List.lookup k fields with
  | some (.str s) => some s
  | _ => none

/- ## SHA-256 (model of GLib's `GChecksum` with `ChecksumType::Sha256`,
an external library: standard FIPS 180-4 SHA-256 over the UTF-8 bytes) -/

def w32 (n : Nat) : Nat := n % 4294967296

def rotr32 (x n : Nat) : Nat := w32 ((x >>> n) ||| (x <<< (32 - n)))

def ch32 (x y z : Nat) : Nat := (x &&& y) ^^^ ((x ^^^ 4294967295) &&& z)

def maj32 (x y z : Nat) : Nat := (x &&& y) ^^^ (x &&& z) ^^^ (y &&& z)

def bigSigma0 (x : Nat) : Nat := rotr32 x 2 ^^^ rotr32 x 13 ^^^ rotr32 x 22

def bigSigma1 (x : Nat) : Nat := rotr32 x 6 ^^^ rotr32 x 11 ^^^ rotr32 x 25

def smallSigma0 (x : Nat) : Nat := rotr32 x 7 ^^^ rotr32 x 18 ^^^ (x >>> 3)

def smallSigma1 (x : Nat) : Nat := rotr32 x 17 ^^^ rotr32 x 19 ^^^ (x >>> 10)

def sha256H0 : List Nat :=
  [1779033703, 3144134277, 1013904242, 2773480762, 1359893119,
   2600822924, 528734635, 1541459225]

def sha256K : List Nat :=
  [1116352408, 1899447441, 3049323471, 3921009573, 961987163,
   1508970993, 2453635748, 2870763221, 3624381080, 310598401,
   607225278, 1426881987, 1925078388, 2162078206, 2614888103,
   3248222580, 3835390401, 4022224774, 264347078, 604807628,
   770255983, 1249150122, 1555081692, 1996064986, 2554220882,
   2821834349, 2952996808, 3210313671, 3336571891, 3584528711,
   113926993, 338241895, 666307205, 773529912, 1294757372,
   1396182291, 1695183700, 1986661051, 2177026350, 2456956037,
   2730485921, 2820302411, 3259730800, 3345764771, 3516065817,
   3600352804, 4094571909, 275423344, 430227734, 506948616,
   659060556, 883997877, 958139571, 1322822218, 1537002063,
   1747873779, 1955562222, 2024104815, 2227730452, 2361852424,
   2428436474, 2756734187, 3204031479, 3329325298]

/-- UTF-8 encoding of one scalar value (Rust `String` bytes). -/
def charUtf8 (c : Char) : List Nat :=
  let n := c.toNat
  if n < 0x80 then [n]
  else if n < 0x800 then
    [0xC0 ||| (n >>> 6), 0x80 ||| (n &&& 0x3F)]
  else if n < 0x10000 then
    [0xE0 ||| (n >>> 12), 0x80 ||| ((n >>> 6) &&& 0x3F), 0x80 ||| (n &&& 0x3F)]
  else
    [0xF0 ||| (n >>> 18), 0x80 ||| ((n >>> 12) &&& 0x3F),
     0x80 ||| ((n >>> 6) &&& 0x3F), 0x80 ||| (n &&& 0x3F)]

def utf8Bytes (s : String) : List Nat := s.data.flatMap charUtf8

/-- Big-endian bytes of `n`, `k` bytes wide. -/
def beBytes (k n : Nat) : List Nat :=
  match k with
  | 0 => []
  | k + 1 => (n >>> (8 * k)) % 256 :: beBytes k n

/-- SHA-256 padding: `0x80`, zeros to 56 mod 64, then the 64-bit bit length. -/
def sha256Pad (msg : List Nat) : List Nat :=
  let len := msg.length
  msg ++ 0x80 :: List.replicate ((119 - len % 64) % 64) 0 ++ beBytes 8 (8 * len)

def chunksOf (n : Nat) (l : List Nat) : List (List Nat) :=
  match l with
  | [] => []
  | x :: xs =>
    (x :: xs).take (max n 1) :: chunksOf n ((x :: xs).drop (max n 1))
termination_by l.length
decreasing_by
  simp only [List.length_drop, List.length_cons]
  omega

/-- Fold a big-endian byte group into one word. -/
def beWord (bytes : List Nat) : Nat := bytes.foldl (fun a b => 256 * a + b) 0

/-- Extend the 16 message-schedule words by `rounds` further words. -/
def sha256ExtendW (w : List Nat) (rounds : Nat) : List Nat :=
  match rounds with
  | 0 => w
  | r + 1 =>
    let i := w.length
    let nw := w32 (smallSigma1 (w.getD (i - 2) 0) + w.getD (i - 7) 0 +
                   smallSigma0 (w.getD (i - 15) 0) + w.getD (i - 16) 0)
    sha256ExtendW (w ++ [nw]) r

/-- One SHA-256 compression round on the eight-word working state. -/
def sha256Round (st : List Nat) (kw : Nat × Nat) : List Nat :=
  match st with
  | [a, b, c, d, e, f, g, h] =>
    let t1 := w32 (h + bigSigma1 e + ch32 e f g + kw.1 + kw.2)
    let t2 := w32 (bigSigma0 a + maj32 a b c)
    [w32 (t1 + t2), a, b, c, w32 (d + t1), e, f, g]
  | other => other

def sha256Compress (h : List Nat) (block : List Nat) : List Nat :=
  let w := sha256ExtendW ((chunksOf 4 block).map beWord) 48
  let st := (sha256K.zip w).foldl sha256Round h
  (h.zip st).map (fun p => w32 (p.1 + p.2))

def sha256 (msg : List Nat) : List Nat :=
  (chunksOf 64 (sha256Pad msg)).foldl sha256Compress sha256H0

/-- Lowercase hex digit, as GLib's `g_checksum_get_string` produces. -/
def hexChar (n : Nat) : Char :=
  if n < 10 then Char.ofNat (48 + n) else Char.ofNat (87 + n)

def word32Hex (w : Nat) : List Char :=
  [hexChar ((w >>> 28) &&& 15), hexChar ((w >>> 24) &&& 15),
   hexChar ((w >>> 20) &&& 15), hexChar ((w >>> 16) &&& 15),
   hexChar ((w >>> 12) &&& 15), hexChar ((w >>> 8) &&& 15),
   hexChar ((w >>> 4) &&& 15), hexChar (w &&& 15)]

/-- `Checksum::new(Sha256); update(data); string()`: lowercase hex digest. -/
def sha256Hex (s : String) : String :=
  String.mk ((sha256 (utf8Bytes s)).flatMap word32Hex)

/- ## Decimal formatting (model of Rust's `u32` `Display`) -/

def digitChar (d : Nat) : Char := Char.ofNat (48 + d)

def decChars (n : Nat) : List Char :=
  if n = 0 then ['0'] else ((Nat.digits 10 n).reverse).map digitChar

/-- Decimal rendering of a machine integer, as `format!("{}", n)` produces. -/
def natDecimal (n : Nat) : String := String.mk (decChars n)

/-- Verified inverse of `decChars`, used to prove `natDecimal` injective. -/
def decVal (l : List Char) : Nat := l.foldl (fun a c => 10 * a + (c.toNat - 48)) 0

/- ## Stream identity (get_stream_id, lines 523-550) -/

/-- `LiveKitWebRTCSrc::session_id`: the constant `"-"`. -/
def sessionIdConst : String := "-"

/-- `format!("{}:{mline}", cs.string().unwrap())`. -/
def deriveStreamId (identitySource : String) (mline : Nat) : String :=
  sha256Hex identitySource ++ ":" ++ natDecimal mline

/-- The part of the signaller object `get_stream_id` consults: whether a
`uri` property of string type exists, and its current value. -/
structure Signaller where
  hasUriProperty : Bool
  uri : Option String
deriving DecidableEq, Repr

/-- `get_stream_id`: `Except.error` models a Rust panic (the
`.unwrap()` of the `uri` property value), the inner `Option` the
`mline`-availability result. -/
def getStreamId (sig : Signaller) (transceiverMline : Option Nat)
    (mline : Option Nat) : Except String (Option String) :=
  let m := match transceiverMline with
           | some t => some t
           | none => mline
  match m with
  | none => .ok none
  | some i =>
    if sig.hasUriProperty then
      match sig.uri with
      | some u => .ok (some (deriveStreamId u i))
      | none => .error "called `Option::unwrap()` on a `None` value"
    else
      .ok (some (deriveStreamId sessionIdConst i))

/-- `self.get_stream_id(None, Some(i)).unwrap()` as used in `handle_offer`. -/
def getStreamIdUnwrap (sig : Signaller) (i : Nat) : Except String String :=
  match getStreamId sig none (some i) with
  | .error e => .error e
  | .ok none => .error "called `Option::unwrap()` on a `None` value"
  | .ok (some s) => .ok s

/- ## SDP offer model (handle_offer, lines 694-780) -/

/-- One result of `media.caps_from_media(pt)` (gst-sdp): an
`application/x-rtp` structure.  That external function always emits the
`media` field (the media line's kind), kept distinguished here; `fields`
holds the remaining rtpmap/fmtp-derived fields. -/
structure RtpCaps where
  media : String
  fields : Fields
deriving DecidableEq, Repr

/-- One SDP media line, at the granularity `handle_offer` consumes it:
its format strings, the parsed caps per payload type
(`caps_from_media`), and the outcome of the external
`attributes_to_caps`, which is fallible: `attrsOk` records whether the
media's attributes convert at all (e.g. a malformed `a=extmap:` makes
it return an error), and `attrFields` the caps fields the conversion
adds when it succeeds (e.g. `extmap-N` entries). -/
structure SDPMedia where
  formats : List String
  ptCaps : List (Int × RtpCaps)
  attrFields : Fields
  attrsOk : Bool
deriving DecidableEq, Repr

/-- Decimal value of a non-empty all-digit character list. -/
def decDigitsVal? (l : List Char) : Option Nat :=
  match l with
  | [] => none
  | _ =>
    l.foldl
      (fun acc c =>
        match acc with
        | none => none
        | some a => if c.isDigit then some (10 * a + (c.toNat - 48)) else none)
      (some 0)

/-- Model of Rust's `str::parse::<i32>()`: optional sign, one or more
decimal digits, within the `i32` range. -/
def parseI32 (s : String) : Option Int :=
  match s.data with
  | '+' :: rest =>
    match decDigitsVal? rest with
    | none => none
    | some v => if v ≤ 2147483647 then some (v : Int) else none
  | '-' :: rest =>
    match decDigitsVal? rest with
    | none => none
    | some v => if v ≤ 2147483648 then some (-(v : Int)) else none
  | l =>
    match decDigitsVal? l with
    | none => none
    | some v => if v ≤ 2147483647 then some (v : Int) else none

def rtpTwccUri : String :=
  "http://www.ietf.org/id/draft-holmer-rmcat-transport-wide-cc-extensions-01"

def isTwccEntry (p : String × GValue) : Bool :=
  strStartsWith p.1 "extmap-" && p.2 == GValue.str rtpTwccUri

def nonRtcpField (p : String × GValue) : Bool := !(strStartsWith p.1 "rtcp-")

/-- Lines 711-741: copy every non-`rtcp-` field of the pre-attribute
structure into a fresh structure, then re-add exactly the `extmap-`
entries whose string value is the TWCC URI from the structure extended
with the media attributes. -/
def buildFilteredFields (origFields attrFields : Fields) : Fields :=
  extendFields
    (extendFields [] (origFields.filter nonRtcpField))
    ((extendFields origFields attrFields).filter isTwccEntry)

/-- The per-format body of the `filter_map` in `handle_offer`: parse the
format as an `i32` payload type, fetch its caps, keep it only when its
`encoding-name` is an allowed codec name, drop it (the code logs a
warning, lines 720-727) when `attributes_to_caps` fails on the media's
attributes, and otherwise build the filtered structure. -/
def capsFromFormat (codecNames : List String) (m : SDPMedia) (f : String) :
    Option RtpCaps :=
  match parseI32 f with
  | none => none
  | some pt =>
    match List.lookup pt m.ptCaps with
    | none => none
    | some c =>
      match getStrField c.fields "encoding-name" with
      | none => none
      | some enc =>
        if codecNames.contains enc then
          if m.attrsOk then
            some { media := c.media, fields := buildFilteredFields c.fields m.attrFields }
          else none
        else none

/-- The surviving filtered structures of one media line. -/
def filterMedia (codecNames : List String) (m : SDPMedia) : List RtpCaps :=
  m.formats.filterMap (capsFromFormat codecNames m)

/-- Whether `handle_offer` turns this media line into a track request:
at least one structure survives filtering and the first surviving
structure's `media` field is `video` or `audio`
(`create_and_probe_src_pad` returns `false` otherwise). -/
def lineAccepted (codecNames : List String) (m : SDPMedia) : Bool :=
  match filterMedia codecNames m with
  | [] => false
  | c :: _ => c.media == "video" || c.media == "audio"

/- ## Externally visible effects -/

inductive Leg where
  | publisher
  | subscriber
deriving DecidableEq, Repr

inductive TransceiverDirection where
  | recvonly
deriving DecidableEq, Repr

inductive FecType where
  | ulpRed
deriving DecidableEq, Repr

inductive Effect where
  | addTransceiver (leg : Leg) (dir : TransceiverDirection) (caps : List RtpCaps)
  | setDoNack (b : Bool)
  | setFecType (f : FecType)
  | setRemoteDescription (leg : Leg)
  | createAnswer
  | setLocalDescription (leg : Leg) (sdp : String)
  | sendSdp (sessionId : String) (sdp : String)
  | addIceCandidate (leg : Leg) (mline : Nat) (candidate : String)
  | logError (msg : String)
  | elementError (msg : String)
  | panic (msg : String)
  | consumerAdded
  | stopSignaller
  | removePad (name : String)
  | emitRequestFilter (padName : String)
  | addElement (name : String)
  | linkGhostTo (dest : String)
  | setTargetNow (target : String)
  | deferTargetFrom (element : String)
  | deferLink (src : String) (dst : String)
deriving DecidableEq, Repr

/- ## Source pads (WebRTCSrcPad) -/

/-- Modelled from the spec: the `WebRTCSrcPad` subclass lives outside the
given sources; per the spec a Track Endpoint is
`{track-id, media-kind sequence-indexed name, needs-decode, target}`,
with `set_stream_id`/`set_needs_decoding`/`set_target` writing the
respective fields. -/
structure SrcPad where
  name : String
  streamId : String
  needsDecoding : Bool
  target : Option String
deriving DecidableEq, Repr

/-- Modelled from the spec: `utils::VIDEO_CAPS`/`AUDIO_CAPS` (outside the
given sources) are the fixed raw decoded capability descriptors per media
kind; only their structure names are consulted here. -/
def rawCapsName (mediaType : String) : String :=
  if mediaType == "video" then "video/x-raw" else "audio/x-raw"

/-- `create_and_probe_src_pad` (lines 634-682).  `probes` feeds the
downstream capability query results, one `Option String` (the name of
the first structure of the peer's caps, `none` for empty caps) per
created pad; non-audio/video media types create no pad and consume no
probe.  Returns the created pad and the updated pad counters and probe
stream. -/
def createAndProbeSrcPad (mediaType streamId : String) (nv na : Nat)
    (probes : List (Option String)) :
    Option SrcPad × Nat × Nat × List (Option String) :=
  if mediaType == "video" then
    (some { name := s!"video_{nv}", streamId := streamId,
            needsDecoding := probes.headD none == some "video/x-raw",
            target := none },
     nv + 1, na, probes.tail)
  else if mediaType == "audio" then
    (some { name := s!"audio_{na}", streamId := streamId,
            needsDecoding := probes.headD none == some "audio/x-raw",
            target := none },
     nv, na + 1, probes.tail)
  else
    (none, nv, na, probes)

/- ## handle_offer as a fold over the media lines -/

structure OfferAcc where
  pads : List SrcPad := []
  nv : Nat := 0
  na : Nat := 0
  probes : List (Option String) := []
  actions : List Effect := []
  panicked : Bool := false
deriving DecidableEq, Repr

/-- The body of the `for (i, media)` loop of `handle_offer`: filter the
media line, derive its stream id (which can panic: `getStreamIdUnwrap`),
create and probe the source pad, and add the receive-only transceiver
with NACK and ULP-RED enabled.  A panic aborts the remaining
iterations. -/
def processMedia (sig : Signaller) (codecNames : List String) (idx : Nat)
    (m : SDPMedia) (acc : OfferAcc) : OfferAcc :=
  if acc.panicked then acc
  else
    match filterMedia codecNames m with
    | [] => acc
    | c :: cs =>
      match getStreamIdUnwrap sig idx with
      | .error e => { acc with panicked := true, actions := acc.actions ++ [.panic e] }
      | .ok sid =>
        match createAndProbeSrcPad c.media sid acc.nv acc.na acc.probes with
        | (none, nv', na', probes') =>
          { acc with nv := nv', na := na', probes := probes' }
        | (some pad, nv', na', probes') =>
          { acc with
              pads := acc.pads ++ [pad], nv := nv', na := na', probes := probes',
              actions := acc.actions ++
                [.addTransceiver .subscriber .recvonly (c :: cs),
                 .setDoNack true, .setFecType .ulpRed] }

def handleOfferGo (sig : Signaller) (codecNames : List String) :
    Nat → List SDPMedia → OfferAcc → OfferAcc
  | _, [], acc => acc
  | idx, m :: rest, acc =>
    handleOfferGo sig codecNames (idx + 1) rest (processMedia sig codecNames idx m acc)

structure OfferResult where
  pads : List SrcPad
  nv : Nat
  na : Nat
  actions : List Effect
  panicked : Bool
deriving DecidableEq, Repr

/-- `handle_offer` (lines 694-780): process every media line, then set
the offer as the subscriber's remote description and request answer
creation (skipped if an iteration panicked, since a Rust panic unwinds
out of the method). -/
def handleOffer (sig : Signaller) (codecNames : List String)
    (medias : List SDPMedia) (probes : List (Option String)) (nv na : Nat) :
    OfferResult :=
  let acc := handleOfferGo sig codecNames 0 medias
    { nv := nv, na := na, probes := probes }
  { pads := acc.pads, nv := acc.nv, na := acc.na, panicked := acc.panicked,
    actions := acc.actions ++
      if acc.panicked then [] else [.setRemoteDescription .subscriber, .createAnswer] }

/- ## on_answer_created (lines 782-838) -/

/-- A field value of the promise reply structure, by GType. -/
inductive ReplyVal where
  | sessionDesc (sdp : String)
  | gerror (msg : String)
  | other (v : String)
deriving DecidableEq, Repr

abbrev ReplyStruct := List (String × ReplyVal)

inductive PromiseResult where
  | ok (r : Option ReplyStruct)
  | err (e : String)
deriving DecidableEq, Repr

def lookupField (r : ReplyStruct) (name : String) : Option ReplyVal :=
  List.lookup name r

def isSessionDescV : ReplyVal → Bool
  | .sessionDesc _ => true
  | _ => false

def isGErrorV : ReplyVal → Bool
  | .gerror _ => true
  | _ => false

/-- `gst::StructureRef::has_field_with_type`. -/
def hasFieldWithType (r : ReplyStruct) (name : String) (tpred : ReplyVal → Bool) :
    Bool :=
  match lookupField r name with
  | some v => tpred v
  | none => false

/-- `on_answer_created`: validate the reply, then set the answer as the
subscriber's local description and send it through the signaller. -/
def onAnswerCreated (subscriberPc : Option Unit) (res : PromiseResult) :
    List Effect :=
  match res with
  | .ok (some r) =>
    if !(hasFieldWithType r "answer" isSessionDescV) then
      [.elementError "create-answer::Promise returned with no reply"]
    else if hasFieldWithType r "error" isGErrorV then
      [.elementError "create-offer::Promise returned with error"]
    else
      match lookupField r "answer" with
      | some (.sessionDesc sdp) =>
        match subscriberPc with
        | some _ => [.setLocalDescription .subscriber sdp,
                     .sendSdp sessionIdConst sdp]
        | none => [.panic "subscriber_pc should only be called when state >= ready"]
      | _ => [.panic "Invalid argument"]
  | .ok none => [.elementError "create-answer::Promise returned with no reply"]
  | .err e => [.elementError ("create-answer::Promise returned with error " ++ e)]

/- ## handle_ice (lines 852-870) -/

/-- `handle_ice`: a missing mline index is logged and dropped; otherwise
the candidate goes to the publisher peer connection only. -/
def handleIce (publisherPc : Option Unit) (_peerId : String)
    (mline : Option Nat) (candidate : String) : List Effect :=
  match mline with
  | none => [.logError "No mandatory mline"]
  | some m =>
    match publisherPc with
    | none => [.panic "publisher_pc should only be called when state >= ready"]
    | some _ => [.addIceCandidate .publisher m candidate]

/- ## handle_webrtc_src_pad (lines 306-444): decode-branch construction -/

/-- The effect trace of `handle_webrtc_src_pad` once the webrtcbin pad is
(or is not) resolved to an exposed source pad: the request-encoded-filter
emission and the four branch shapes. -/
def handleWebrtcSrcPadActions (resolved : Option SrcPad)
    (filterReply : Option String) : List Effect :=
  match resolved with
  | none => []
  | some p =>
    .emitRequestFilter p.name ::
    (if p.needsDecoding then
      [.addElement "decodebin3", .deferTargetFrom "decodebin3"] ++
      (match filterReply with
       | some flt =>
         [.addElement "parsebin", .addElement flt,
          .deferLink "parsebin" flt, .deferLink flt "decodebin3",
          .linkGhostTo "parsebin"]
       | none => [.linkGhostTo "decodebin3"])
    else
      match filterReply with
      | some flt =>
        [.addElement flt, .linkGhostTo flt, .setTargetNow (flt ++ ":src")]
      | none => [.setTargetNow "ghostpad"])

/-- The immediate ghost-target assignment performed for non-decoded
branches; decoded branches leave the target for the deferred
`pad-added` callback. -/
def newTargetFor (p : SrcPad) (filterReply : Option String) : Option String :=
  if p.needsDecoding then p.target
  else
    match filterReply with
    | some flt => some (flt ++ ":src")
    | none => some "ghostpad"

def setTargetFirst (pads : List SrcPad) (sid : String) (t : Option String) :
    List SrcPad :=
  match pads with
  | [] => []
  | p :: rest =>
    if p.streamId == sid then { p with target := t } :: rest
    else p :: setTargetFirst rest sid t

/- ## The element state machine -/

structure ElemState where
  signaller : Signaller
  videoCodecNames : List String := []
  audioCodecNames : List String := []
  publisherPc : Option Unit := none
  subscriberPc : Option Unit := none
  pads : List SrcPad := []
  nVideoPads : Nat := 0
  nAudioPads : Nat := 0
  signallerStarted : Bool := false
deriving DecidableEq, Repr

/-- `all_codec_names`: the union of the configured video and audio codec
names (membership model of the `HashSet`). -/
def allCodecNames (s : ElemState) : List String :=
  s.videoCodecNames ++ s.audioCodecNames

/-- One callback invocation on the element. -/
inductive Op where
  | prepare
  | handleOffer (medias : List SDPMedia) (probes : List (Option String))
  | padAdded (transceiverMline : Nat) (filterReply : Option String)
  | onAnswerCreated (res : PromiseResult)
  | handleIce (peerId : String) (mline : Option Nat) (candidate : String)
  | unprepare
deriving DecidableEq, Repr

/-- The module's per-callback transition function.  Note `unprepare`
(lines 552-566) stops the signaller, removes the exposed pads and resets
the pad counters, but never clears `publisherPc`/`subscriberPc`. -/
def step (s : ElemState) : Op → ElemState × List Effect
  | .prepare =>
    ({ s with publisherPc := some (), subscriberPc := some () }, [.consumerAdded])
  | .handleOffer medias probes =>
    match s.subscriberPc with
    | none => (s, [.panic "subscriber_pc should only be called when state >= ready"])
    | some _ =>
      let r := handleOffer s.signaller (allCodecNames s) medias probes
        s.nVideoPads s.nAudioPads
      ({ s with pads := s.pads ++ r.pads, nVideoPads := r.nv, nAudioPads := r.na },
       r.actions)
  | .padAdded mline filterReply =>
    match getStreamId s.signaller (some mline) none with
    | .error e => (s, [.panic e])
    | .ok none => (s, [])
    | .ok (some sid) =>
      match s.pads.find? (fun p => p.streamId == sid) with
      | none => (s, handleWebrtcSrcPadActions none filterReply)
      | some p =>
        ({ s with pads := setTargetFirst s.pads sid (newTargetFor p filterReply) },
         handleWebrtcSrcPadActions (some p) filterReply)
  | .onAnswerCreated res => (s, onAnswerCreated s.subscriberPc res)
  | .handleIce peerId mline candidate => (s, handleIce s.publisherPc peerId mline candidate)
  | .unprepare =>
    ({ s with pads := [], nVideoPads := 0, nAudioPads := 0, signallerStarted := false },
     (if s.signallerStarted then [.stopSignaller] else []) ++
       s.pads.map (fun p => .removePad p.name))

/- ## Flow aggregation -/

inductive FlowState where
  | ok
  | notNegotiated
  | flushing
  | error
deriving DecidableEq, Repr

def severity : FlowState → Nat
  | .ok => 0
  | .notNegotiated => 1
  | .flushing => 2
  | .error => 3

/-- Modelled from the spec: the element delegates flow combination to
`gst_base::UniqueFlowCombiner`, whose implementation is outside the
given sources; per the spec the aggregator maps each active branch to
its last reported flow state and the aggregate is the most severe state
present under `Ok < NotNegotiated < Flushing < Error`. -/
structure FlowCombiner where
  branches : List (String × FlowState)
deriving DecidableEq, Repr

def FlowCombiner.aggregate (fc : FlowCombiner) : FlowState :=
  fc.branches.foldl
    (fun acc p => if severity acc < severity p.2 then p.2 else acc) .ok

/-- Modelled from the spec: `update(branch, state)` replaces the branch's
entry (inserting it if absent) and recomputes the aggregate. -/
def FlowCombiner.update (fc : FlowCombiner) (branch : String) (st : FlowState) :
    FlowCombiner × FlowState :=
  let fc' : FlowCombiner :=
    { branches :=
        if fc.branches.any (fun p => p.1 == branch) then
          fc.branches.map (fun p => if p.1 == branch then (branch, st) else p)
        else
          fc.branches ++ [(branch, st)] }
  (fc', fc'.aggregate)

/-- Modelled from the spec: `remove(branch)` drops the branch's entry. -/
def FlowCombiner.removeBranch (fc : FlowCombiner) (branch : String) : FlowCombiner :=
  { branches := fc.branches.filter (fun p => !(p.1 == branch)) }

/- ## Effect classifiers used by the counting theorems -/

def isAddTransceiverA : Effect → Bool
  | .addTransceiver _ _ _ => true
  | _ => false

def isSetDoNackA : Effect → Bool
  | .setDoNack _ => true
  | _ => false

def isSetFecA : Effect → Bool
  | .setFecType _ => true
  | _ => false

def isPanicA : Effect → Bool
  | .panic _ => true
  | _ => false

def isElementErrorA : Effect → Bool
  | .elementError _ => true
  | _ => false

def isLogErrorA : Effect → Bool
  | .logError _ => true
  | _ => false

def isEmitRequestFilterA : Effect → Bool
  | .emitRequestFilter _ => true
  | _ => false

/- ## C9 -/

/-- C9: refuted as stated — stream-identity derivation is NOT total for
every signaller.  When the signaller exposes a `uri` property whose
current value is absent, `get_stream_id` unwraps `None` and panics
(line 540: `.property::<Option<String>>("uri").unwrap()`), instead of
falling back to the session placeholder as the spec requires. -/
theorem stream_id_uri_none_panics :
    getStreamId { hasUriProperty := true, uri := none } none (some 0) =
      .error "called `Option::unwrap()` on a `None` value" := rfl

/- ## C7 -/

def lateAnswerState : ElemState :=
  (step (step { signaller := { hasUriProperty := false, uri := none } } .prepare).1
    .unprepare).1

def lateAnswerReply : PromiseResult := .ok (some [("answer", .sessionDesc "answer-sdp")])

/-- C7: refuted — after teardown (`unprepare`) the state retains the
subscriber peer connection and `on_answer_created` contains no teardown
check, so a promise callback that fires late with a successful reply
still sets the local description and sends the answer through the
signaller, instead of being a no-op. -/
theorem late_answer_callback_not_noop :
    lateAnswerState.pads = [] ∧
    lateAnswerState.subscriberPc = some () ∧
    (step lateAnswerState (.onAnswerCreated lateAnswerReply)).2 =
      [.setLocalDescription .subscriber "answer-sdp",
       .sendSdp sessionIdConst "answer-sdp"] := by
  decide

/- ## C10 -/

/-- C10: a candidate with an mline index is added to the publisher leg
only, and a candidate without one is logged as an error and discarded
without failing the session. -/
theorem ice_candidate_routing (publisherPc : Option Unit) (peerId : String)
    (mline : Option Nat) (candidate : String) (hpub : publisherPc = some ()) :
    (∀ m, mline = some m →
      handleIce publisherPc peerId mline candidate =
        [.addIceCandidate .publisher m candidate]) ∧
    (mline = none →
      handleIce publisherPc peerId mline candidate =
        [.logError "No mandatory mline"]) ∧
    (∀ m c, Effect.addIceCandidate .subscriber m c ∉
      handleIce publisherPc peerId mline candidate) ∧
    (∀ msg, Effect.elementError msg ∉ handleIce publisherPc peerId mline candidate) ∧
    (∀ msg, Effect.panic msg ∉ handleIce publisherPc peerId mline candidate) := by
  subst hpub
  cases mline with
  | none => simp [handleIce]
  | some m => simp [handleIce]

theorem ice_candidate_routing_witness :
    handleIce (some ()) "producer-peer" (some 2) "candidate:1 1 UDP" =
      [.addIceCandidate .publisher 2 "candidate:1 1 UDP"] :=
  (ice_candidate_routing (some ()) "producer-peer" (some 2) "candidate:1 1 UDP" rfl).1 2 rfl

/- ## C5 -/

/-- C5: for a raw transport track resolved to a known endpoint, the
request-encoded-filter extension point is invoked exactly once and
exactly one of four pairwise-distinct decode paths is constructed,
selected by (needs-decode, filter-requested): direct, filtered,
decoded-with-deferred-attachment, and parse→filter→decode. -/
theorem decode_branch_selection (p : SrcPad) (filterReply : Option String) :
    (handleWebrtcSrcPadActions (some p) filterReply).countP isEmitRequestFilterA = 1 ∧
    (p.needsDecoding = false → filterReply = none →
      handleWebrtcSrcPadActions (some p) filterReply =
        [.emitRequestFilter p.name, .setTargetNow "ghostpad"]) ∧
    (∀ flt, p.needsDecoding = false → filterReply = some flt →
      handleWebrtcSrcPadActions (some p) filterReply =
        [.emitRequestFilter p.name, .addElement flt, .linkGhostTo flt,
         .setTargetNow (flt ++ ":src")]) ∧
    (p.needsDecoding = true → filterReply = none →
      handleWebrtcSrcPadActions (some p) filterReply =
        [.emitRequestFilter p.name, .addElement "decodebin3",
         .deferTargetFrom "decodebin3", .linkGhostTo "decodebin3"]) ∧
    (∀ flt, p.needsDecoding = true → filterReply = some flt →
      handleWebrtcSrcPadActions (some p) filterReply =
        [.emitRequestFilter p.name, .addElement "decodebin3",
         .deferTargetFrom "decodebin3", .addElement "parsebin", .addElement flt,
         .deferLink "parsebin" flt, .deferLink flt "decodebin3",
         .linkGhostTo "parsebin"]) ∧
    (∀ flt flt',
      [Effect.emitRequestFilter p.name, .setTargetNow "ghostpad"] ≠
        [Effect.emitRequestFilter p.name, .addElement flt, .linkGhostTo flt,
         .setTargetNow (flt ++ ":src")] ∧
      [Effect.emitRequestFilter p.name, .setTargetNow "ghostpad"] ≠
        [Effect.emitRequestFilter p.name, .addElement "decodebin3",
         .deferTargetFrom "decodebin3", .linkGhostTo "decodebin3"] ∧
      [Effect.emitRequestFilter p.name, .setTargetNow "ghostpad"] ≠
        [Effect.emitRequestFilter p.name, .addElement "decodebin3",
         .deferTargetFrom "decodebin3", .addElement "parsebin", .addElement flt,
         .deferLink "parsebin" flt, .deferLink flt "decodebin3",
         .linkGhostTo "parsebin"] ∧
      [Effect.emitRequestFilter p.name, .addElement flt, .linkGhostTo flt,
         .setTargetNow (flt ++ ":src")] ≠
        [Effect.emitRequestFilter p.name, .addElement "decodebin3",
         .deferTargetFrom "decodebin3", .linkGhostTo "decodebin3"] ∧
      [Effect.emitRequestFilter p.name, .addElement flt, .linkGhostTo flt,
         .setTargetNow (flt ++ ":src")] ≠
        [Effect.emitRequestFilter p.name, .addElement "decodebin3",
         .deferTargetFrom "decodebin3", .addElement "parsebin", .addElement flt',
         .deferLink "parsebin" flt', .deferLink flt' "decodebin3",
         .linkGhostTo "parsebin"] ∧
      [Effect.emitRequestFilter p.name, .addElement "decodebin3",
         .deferTargetFrom "decodebin3", .linkGhostTo "decodebin3"] ≠
        [Effect.emitRequestFilter p.name, .addElement "decodebin3",
         .deferTargetFrom "decodebin3", .addElement "parsebin", .addElement flt,
         .deferLink "parsebin" flt, .deferLink flt "decodebin3",
         .linkGhostTo "parsebin"]) := by
  refine ⟨?_, ?_, ?_, ?_, ?_, ?_⟩
  · cases hnd : p.needsDecoding <;> cases filterReply <;>
      simp [handleWebrtcSrcPadActions, hnd, List.countP_cons, isEmitRequestFilterA]
  · intro h1 h2
    simp [handleWebrtcSrcPadActions, h1, h2]
  · intro flt h1 h2
    simp [handleWebrtcSrcPadActions, h1, h2]
  · intro h1 h2
    simp [handleWebrtcSrcPadActions, h1, h2]
  · intro flt h1 h2
    simp [handleWebrtcSrcPadActions, h1, h2]
  · intro flt flt'
    refine ⟨?_, ?_, ?_, ?_, ?_, ?_⟩ <;> simp

def plainPadEx : SrcPad :=
  { name := "video_0", streamId := "sid", needsDecoding := false, target := none }

theorem decode_branch_selection_witness :
    handleWebrtcSrcPadActions (some plainPadEx) none =
      [.emitRequestFilter plainPadEx.name, .setTargetNow "ghostpad"] :=
  (decode_branch_selection plainPadEx none).2.1 rfl rfl

/- ## C3 -/

/-- Stated from the spec's words (amended): the reply is acted on exactly
when it exists, has an `answer` field of session-description type, and
has no `error` field of error type. -/
def specValidReply : PromiseResult → Bool
  | .ok (some r) =>
    hasFieldWithType r "answer" isSessionDescV &&
      !(hasFieldWithType r "error" isGErrorV)
  | _ => false

def mixedReplyEx : ReplyStruct :=
  [("answer", .sessionDesc "v=0 answer"), ("error", .other "not-a-gerror")]

/-- C3: refuted as stated — the code checks the `error` field with type
`glib::Error` (`has_field_with_type`), not mere presence, so a reply
carrying an `answer` plus an `error` field of a different type is still
set as local description and sent, although the claim requires an
element error and no send whenever an `error` field is present. -/
theorem answer_error_field_claim_refuted :
    (lookupField mixedReplyEx "error").isSome = true ∧
    onAnswerCreated (some ()) (.ok (some mixedReplyEx)) =
      [.setLocalDescription .subscriber "v=0 answer",
       .sendSdp sessionIdConst "v=0 answer"] := by
  decide

/-- C3 (amended): the answer is set and sent exactly when the reply
exists, has an `answer` field of session-description type, and has no
`error` field of GLib-error type; in every other case exactly one
element error is raised, nothing is set or sent, and no new answer
generation is requested. -/
theorem answer_created_validation (subscriberPc : Option Unit)
    (res : PromiseResult) (hpc : subscriberPc = some ()) :
    (specValidReply res = true →
      ∃ r sdp, res = .ok (some r) ∧
        lookupField r "answer" = some (.sessionDesc sdp) ∧
        onAnswerCreated subscriberPc res =
          [.setLocalDescription .subscriber sdp, .sendSdp sessionIdConst sdp]) ∧
    (specValidReply res = false →
      (∃ m, onAnswerCreated subscriberPc res = [.elementError m]) ∧
      (∀ l sdp, Effect.setLocalDescription l sdp ∉ onAnswerCreated subscriberPc res) ∧
      (∀ sid sdp, Effect.sendSdp sid sdp ∉ onAnswerCreated subscriberPc res)) ∧
    Effect.createAnswer ∉ onAnswerCreated subscriberPc res := by
  subst hpc
  match res with
  | .err e =>
    refine ⟨fun h => by simp [specValidReply] at h, fun _ => ?_, ?_⟩
    · exact ⟨⟨_, rfl⟩, by simp [onAnswerCreated], by simp [onAnswerCreated]⟩
    · simp [onAnswerCreated]
  | .ok none =>
    refine ⟨fun h => by simp [specValidReply] at h, fun _ => ?_, ?_⟩
    · exact ⟨⟨_, rfl⟩, by simp [onAnswerCreated], by simp [onAnswerCreated]⟩
    · simp [onAnswerCreated]
  | .ok (some r) =>
    cases ha : hasFieldWithType r "answer" isSessionDescV with
    | false =>
      refine ⟨fun h => by simp [specValidReply, ha] at h, fun _ => ?_, ?_⟩
      · exact ⟨⟨"create-answer::Promise returned with no reply",
            by simp [onAnswerCreated, ha]⟩,
          by simp [onAnswerCreated, ha], by simp [onAnswerCreated, ha]⟩
      · simp [onAnswerCreated, ha]
    | true =>
      cases he : hasFieldWithType r "error" isGErrorV with
      | true =>
        refine ⟨fun h => by simp [specValidReply, ha, he] at h, fun _ => ?_, ?_⟩
        · exact ⟨⟨"create-offer::Promise returned with error",
              by simp [onAnswerCreated, ha, he]⟩,
            by simp [onAnswerCreated, ha, he], by simp [onAnswerCreated, ha, he]⟩
        · simp [onAnswerCreated, ha, he]
      | false =>
        have hl : ∃ sdp, lookupField r "answer" = some (.sessionDesc sdp) := by
          unfold hasFieldWithType at ha
          cases hf : lookupField r "answer" with
          | none => rw [hf] at ha; exact absurd ha (by simp)
          | some v =>
            rw [hf] at ha
            cases v with
            | sessionDesc sdp => exact ⟨sdp, rfl⟩
            | gerror m => exact absurd ha (by simp [isSessionDescV])
            | other m => exact absurd ha (by simp [isSessionDescV])
        obtain ⟨sdp, hf⟩ := hl
        refine ⟨fun _ => ⟨r, sdp, rfl, hf, ?_⟩, fun h => ?_, ?_⟩
        · simp [onAnswerCreated, ha, he, hf]
        · exact absurd h (by simp [specValidReply, ha, he])
        · simp [onAnswerCreated, ha, he, hf]

def goodReplyEx : ReplyStruct := [("answer", .sessionDesc "v=0 good")]

theorem answer_created_validation_witness :
    ∃ r sdp, PromiseResult.ok (some goodReplyEx) = .ok (some r) ∧
      lookupField r "answer" = some (.sessionDesc sdp) ∧
      onAnswerCreated (some ()) (.ok (some goodReplyEx)) =
        [.setLocalDescription .subscriber sdp, .sendSdp sessionIdConst sdp] :=
  (answer_created_validation (some ()) (.ok (some goodReplyEx)) rfl).1 (by decide)

/- ## C8 -/

def aggStep (acc : FlowState) (p : String × FlowState) : FlowState :=
  if severity acc < severity p.2 then p.2 else acc

theorem aggregate_eq_foldl (fc : FlowCombiner) :
    fc.aggregate = fc.branches.foldl aggStep .ok := rfl

theorem foldl_aggStep_spec (l : List (String × FlowState)) :
    ∀ acc : FlowState,
      severity acc ≤ severity (l.foldl aggStep acc) ∧
      (∀ p ∈ l, severity p.2 ≤ severity (l.foldl aggStep acc)) ∧
      (l.foldl aggStep acc = acc ∨ ∃ p ∈ l, p.2 = l.foldl aggStep acc) := by
  induction l with
  | nil => exact fun acc => ⟨Nat.le_refl _, by simp, Or.inl rfl⟩
  | cons q l ih =>
    intro acc
    have hstep : severity acc ≤ severity (aggStep acc q) ∧
        severity q.2 ≤ severity (aggStep acc q) ∧
        (aggStep acc q = acc ∨ aggStep acc q = q.2) := by
      unfold aggStep
      split
      · exact ⟨Nat.le_of_lt (by assumption), Nat.le_refl _, Or.inr rfl⟩
      · exact ⟨Nat.le_refl _, Nat.le_of_not_lt (by assumption), Or.inl rfl⟩
    obtain ⟨ih1, ih2, ih3⟩ := ih (aggStep acc q)
    refine ⟨Nat.le_trans hstep.1 ih1, ?_, ?_⟩
    · intro p hp
      rcases List.mem_cons.1 hp with rfl | hp
      · exact Nat.le_trans hstep.2.1 ih1
      · exact ih2 p hp
    · rcases ih3 with heq | ⟨p, hp, hpe⟩
      · rcases hstep.2.2 with h | h
        · exact Or.inl (by rw [List.foldl_cons, heq, h])
        · exact Or.inr ⟨q, List.mem_cons_self q l, by rw [List.foldl_cons, heq, h]⟩
      · exact Or.inr ⟨p, List.mem_cons_of_mem q hp, hpe⟩

theorem severity_eq_zero {st : FlowState} (h : severity st = 0) : st = .ok := by
  cases st <;> simp [severity] at h ⊢

/-- C8: after any update the aggregate is the most severe state among
the branches (severity `Ok < NotNegotiated < Flushing < Error`): it
bounds every branch's state, is `Ok` on an empty map, and is attained
by some branch otherwise; concretely, with `B1 = Ok` and `B2 = Error`
the aggregate is `Error`, and removing `B2` returns it to `Ok`. -/
theorem flow_aggregate_most_severe :
    (∀ (fc : FlowCombiner) (branch : String) (st : FlowState),
      (∀ p ∈ ((fc.update branch st).1).branches,
        severity p.2 ≤ severity ((fc.update branch st).2)) ∧
      (((fc.update branch st).1).branches = [] → (fc.update branch st).2 = .ok) ∧
      (((fc.update branch st).1).branches ≠ [] →
        ∃ p ∈ ((fc.update branch st).1).branches, p.2 = (fc.update branch st).2)) ∧
    ((((FlowCombiner.mk []).update "B1" .ok).1.update "B2" .error).2 = .error ∧
      (((((FlowCombiner.mk []).update "B1" .ok).1.update "B2" .error).1.removeBranch
          "B2").aggregate = .ok)) := by
  constructor
  · intro fc branch st
    have hspec := foldl_aggStep_spec ((fc.update branch st).1).branches .ok
    have hagg : (fc.update branch st).2 =
        ((fc.update branch st).1).branches.foldl aggStep .ok := rfl
    refine ⟨fun p hp => by rw [hagg]; exact hspec.2.1 p hp, fun hnil => ?_, fun hne => ?_⟩
    · rw [hagg, hnil]; rfl
    · rcases hspec.2.2 with heq | ⟨p, hp, hpe⟩
      · match hbr : ((fc.update branch st).1).branches, hne with
        | p :: rest, _ =>
          refine ⟨p, by exact hbr ▸ List.mem_cons_self p rest, ?_⟩
          have hb := hspec.2.1 p (by rw [hbr]; exact List.mem_cons_self p rest)
          rw [heq] at hb
          rw [hagg, heq]
          exact severity_eq_zero (Nat.le_antisymm hb (Nat.zero_le _))
      · exact ⟨p, hp, by rw [hagg]; exact hpe⟩
  · constructor
    · decide
    · decide

theorem flow_aggregate_most_severe_witness :
    ∃ p ∈ (((FlowCombiner.mk [("B1", FlowState.ok)]).update "B2" .error).1).branches,
      p.2 = ((FlowCombiner.mk [("B1", FlowState.ok)]).update "B2" .error).2 :=
  (flow_aggregate_most_severe.1 (FlowCombiner.mk [("B1", FlowState.ok)]) "B2"
    .error).2.2 (by decide)

/- ## C2 -/

theorem mem_setField {l : Fields} {k : String} {v : GValue} {q : String × GValue}
    (h : q ∈ setField l k v) : q ∈ l ∨ q = (k, v) := by
  unfold setField at h
  split at h
  · rcases List.mem_map.1 h with ⟨q', hq', hfq⟩
    by_cases hk : q'.1 == k
    · rw [if_pos hk] at hfq; exact Or.inr hfq.symm
    · rw [if_neg hk] at hfq; exact Or.inl (hfq ▸ hq')
  · rcases List.mem_append.1 h with h | h
    · exact Or.inl h
    · exact Or.inr (List.mem_singleton.1 h)

theorem setField_mem_self (l : Fields) (k : String) (v : GValue) :
    (k, v) ∈ setField l k v := by
  unfold setField
  split
  · next hany =>
    rcases List.any_eq_true.1 hany with ⟨p, hp, hpk⟩
    exact List.mem_map.2 ⟨p, hp, by rw [if_pos hpk]⟩
  · exact List.mem_append.2 (Or.inr (List.mem_singleton.2 rfl))

theorem setField_keeps_const {l : Fields} {k : String} {v : GValue} (k' : String)
    (h : (k, v) ∈ l) : (k, v) ∈ setField l k' v := by
  unfold setField
  split
  · refine List.mem_map.2 ⟨(k, v), h, ?_⟩
    by_cases hk : k == k'
    · rw [show ((k, v) : String × GValue).1 = k from rfl] at *
      rw [if_pos hk]
      exact congrArg (fun x => (x, v)) (beq_iff_eq.1 hk).symm
    · rw [if_neg hk]
  · exact List.mem_append.2 (Or.inl h)

theorem mem_extendFields {base l : Fields} {q : String × GValue}
    (h : q ∈ extendFields base l) : q ∈ base ∨ q ∈ l := by
  induction l generalizing base with
  | nil => exact Or.inl h
  | cons e l ih =>
    rcases ih (h : q ∈ extendFields (setField base e.1 e.2) l) with h' | h'
    · rcases mem_setField h' with h'' | h''
      · exact Or.inl h''
      · exact Or.inr (List.mem_cons.2 (Or.inl (by rw [h''])))
    · exact Or.inr (List.mem_cons.2 (Or.inr h'))

theorem extendFields_keeps_const {base l : Fields} {k : String} {v : GValue}
    (h : (k, v) ∈ base) (hall : ∀ q ∈ l, q.2 = v) : (k, v) ∈ extendFields base l := by
  induction l generalizing base with
  | nil => exact h
  | cons e l ih =>
    have he : e.2 = v := hall e (List.mem_cons_self e l)
    show (k, v) ∈ extendFields (setField base e.1 e.2) l
    rw [he]
    exact ih (setField_keeps_const e.1 h) (fun q hq => hall q (List.mem_cons_of_mem e hq))

theorem extendFields_mem_of_mem {base l : Fields} {k : String} {v : GValue}
    (h : (k, v) ∈ l) (hall : ∀ q ∈ l, q.2 = v) : (k, v) ∈ extendFields base l := by
  induction l generalizing base with
  | nil => exact absurd h (List.not_mem_nil _)
  | cons e l ih =>
    rcases List.mem_cons.1 h with heq | hmem
    · have : extendFields base (e :: l) = extendFields (setField base e.1 e.2) l := rfl
      rw [this, ← heq]
      exact extendFields_keeps_const (setField_mem_self base k v)
        (fun q hq => hall q (List.mem_cons_of_mem e hq))
    · exact ih hmem (fun q hq => hall q (List.mem_cons_of_mem e hq))

theorem prefix_extmap_not_rtcp {k : String} (h : strStartsWith k "extmap-" = true) :
    strStartsWith k "rtcp-" = false := by
  unfold strStartsWith at h ⊢
  have he : "extmap-".data = 'e' :: "xtmap-".data := rfl
  have hr : "rtcp-".data = 'r' :: "tcp-".data := rfl
  rw [he] at h
  rw [hr]
  cases hd : k.data with
  | nil => rw [hd] at h; simp [List.isPrefixOf] at h
  | cons c cs =>
    rw [hd] at h
    simp only [List.isPrefixOf, Bool.and_eq_true, beq_iff_eq] at h
    obtain ⟨hc, -⟩ := h
    subst hc
    rfl

theorem isTwccEntry_parts {p : String × GValue} (h : isTwccEntry p = true) :
    strStartsWith p.1 "extmap-" = true ∧ p.2 = GValue.str rtpTwccUri := by
  unfold isTwccEntry at h
  simpa [Bool.and_eq_true, beq_iff_eq] using h

/-- C2: every field of the filtered structure has a key that does not
start with `rtcp-`, and the filtered structure contains a TWCC extmap
entry verbatim exactly when the attribute-extended original structure
does.  The hypothesis records an interface property of the external
`caps_from_media`: its output carries no `extmap-` fields (those come
only from `attributes_to_caps`).  The last conjunct ties
`buildFilteredFields` to the structure handed to the transceiver by
`capsFromFormat`. -/
theorem filtered_caps_rtcp_twcc (origFields attrFields : Fields)
    (hne : ∀ p ∈ origFields, strStartsWith p.1 "extmap-" = false) :
    (∀ p ∈ buildFilteredFields origFields attrFields,
      strStartsWith p.1 "rtcp-" = false) ∧
    (∀ p, isTwccEntry p = true →
      (p ∈ buildFilteredFields origFields attrFields ↔
        p ∈ extendFields origFields attrFields)) ∧
    (∀ codecNames m f out, capsFromFormat codecNames m f = some out →
      ∃ pt c, parseI32 f = some pt ∧ List.lookup pt m.ptCaps = some c ∧
        out.media = c.media ∧
        out.fields = buildFilteredFields c.fields m.attrFields) := by
  refine ⟨?_, ?_, ?_⟩
  · intro p hp
    rcases mem_extendFields hp with hb | ht
    · rcases mem_extendFields hb with hnil | hf
      · exact absurd hnil (List.not_mem_nil p)
      · have hnr : nonRtcpField p = true := (List.mem_filter.1 hf).2
        simpa [nonRtcpField] using hnr
    · have := List.mem_filter.1 ht
      exact prefix_extmap_not_rtcp (isTwccEntry_parts this.2).1
  · intro p htw
    constructor
    · intro hp
      rcases mem_extendFields hp with hb | ht
      · rcases mem_extendFields hb with hnil | hf
        · exact absurd hnil (List.not_mem_nil p)
        · have hor : p ∈ origFields := (List.mem_filter.1 hf).1
          exact absurd (isTwccEntry_parts htw).1 (by rw [hne p hor]; decide)
      · exact (List.mem_filter.1 ht).1
    · intro hp
      have hmem : p ∈ (extendFields origFields attrFields).filter isTwccEntry :=
        List.mem_filter.2 ⟨hp, htw⟩
      have hv : p.2 = GValue.str rtpTwccUri := (isTwccEntry_parts htw).2
      have hall : ∀ q ∈ (extendFields origFields attrFields).filter isTwccEntry,
          q.2 = GValue.str rtpTwccUri :=
        fun q hq => (isTwccEntry_parts (List.mem_filter.1 hq).2).2
      have hmem2 : (p.1, GValue.str rtpTwccUri) ∈
          (extendFields origFields attrFields).filter isTwccEntry := by
        rw [← hv]
        exact hmem
      have hbf : (p.1, GValue.str rtpTwccUri) ∈ buildFilteredFields origFields attrFields := by
        unfold buildFilteredFields
        exact extendFields_mem_of_mem hmem2 hall
      have hp2 : p = (p.1, GValue.str rtpTwccUri) := by rw [← hv]
      rw [hp2]
      exact hbf
  · intro codecNames m f out hcf
    unfold capsFromFormat at hcf
    split at hcf
    · exact absurd hcf (by simp)
    next pt hpt =>
      split at hcf
      · exact absurd hcf (by simp)
      next c hlk =>
        split at hcf
        · exact absurd hcf (by simp)
        next enc hen =>
          split at hcf
          · split at hcf
            · obtain rfl := Option.some.inj hcf
              exact ⟨pt, c, hpt, hlk, rfl, rfl⟩
            · exact absurd hcf (by simp)
          · exact absurd hcf (by simp)

def twccOrigFieldsEx : Fields :=
  [("media", .str "video"), ("payload", .int 96),
   ("encoding-name", .str "VP8"), ("rtcp-fb-nack", .str "1")]

def twccAttrFieldsEx : Fields := [("extmap-3", .str rtpTwccUri)]

theorem filtered_caps_rtcp_twcc_witness :
    ("extmap-3", GValue.str rtpTwccUri) ∈
        buildFilteredFields twccOrigFieldsEx twccAttrFieldsEx ↔
      ("extmap-3", GValue.str rtpTwccUri) ∈
        extendFields twccOrigFieldsEx twccAttrFieldsEx :=
  (filtered_caps_rtcp_twcc twccOrigFieldsEx twccAttrFieldsEx (by decide)).2.1
    ("extmap-3", GValue.str rtpTwccUri) (by decide)

/- ## C4 -/

theorem digitChar_toNat {d : Nat} (hd : d < 10) : (digitChar d).toNat = 48 + d := by
  have hv : (48 + d).isValidChar := Or.inl (by omega)
  unfold digitChar Char.ofNat
  rw [dif_pos hv]
  rfl

theorem decVal_append_digit (l : List Char) (c : Char) :
    decVal (l ++ [c]) = 10 * decVal l + (c.toNat - 48) := by
  unfold decVal
  rw [List.foldl_append]
  rfl

theorem decVal_rev_digits (l : List Nat) (hl : ∀ d ∈ l, d < 10) :
    decVal ((l.reverse).map digitChar) = Nat.ofDigits 10 l := by
  induction l with
  | nil => simp [decVal, Nat.ofDigits_nil]
  | cons d l ih =>
    rw [List.reverse_cons, List.map_append, List.map_singleton, decVal_append_digit,
      ih (fun e he => hl e (List.mem_cons_of_mem d he)),
      digitChar_toNat (hl d (List.mem_cons_self d l)), Nat.ofDigits_cons]
    omega

theorem decVal_decChars (n : Nat) : decVal (decChars n) = n := by
  unfold decChars
  by_cases h : n = 0
  · subst h
    decide
  · rw [if_neg h,
      decVal_rev_digits _ (fun d hd => Nat.digits_lt_base (by norm_num) hd),
      Nat.ofDigits_digits]

/-- C4: for a fixed identity source, distinct mline indices derive
distinct stream identifiers, and the derived identifier is exactly the
lowercase hex SHA-256 digest of the identity source followed by `:` and
the decimal mline index (purity of `deriveStreamId` gives that repeated
derivations return the same string). -/
theorem stream_id_distinct_per_mline (s : String) (i j : Nat) (h : i ≠ j) :
    deriveStreamId s i ≠ deriveStreamId s j ∧
    deriveStreamId s i = sha256Hex s ++ ":" ++ natDecimal i := by
  refine ⟨?_, rfl⟩
  intro heq
  apply h
  have h2 := congrArg String.data heq
  unfold deriveStreamId at h2
  rw [String.data_append, String.data_append, String.data_append,
    String.data_append] at h2
  have hd : (natDecimal i).data = (natDecimal j).data := List.append_cancel_left h2
  have h3 : decChars i = decChars j := hd
  have h4 := congrArg decVal h3
  rwa [decVal_decChars, decVal_decChars] at h4

theorem stream_id_distinct_per_mline_witness :
    deriveStreamId "wss://livekit.example" 0 ≠ deriveStreamId "wss://livekit.example" 1 ∧
    deriveStreamId "wss://livekit.example" 0 =
      sha256Hex "wss://livekit.example" ++ ":" ++ natDecimal 0 :=
  stream_id_distinct_per_mline "wss://livekit.example" 0 1 (by decide)

/- ## C6 -/

/-- The identity-relevant part of an exposed pad: its stream id and its
needs-decode flag. -/
def padKey (p : SrcPad) : String × Bool := (p.streamId, p.needsDecoding)

theorem setTargetFirst_map_padKey (pads : List SrcPad) (sid : String)
    (t : Option String) :
    (setTargetFirst pads sid t).map padKey = pads.map padKey := by
  induction pads with
  | nil => rfl
  | cons p rest ih =>
    unfold setTargetFirst
    split
    · simp [padKey]
    · simp only [List.map_cons, ih]

/-- C6: the needs-decode flag is write-once.  Every operation of the
module either preserves the `(stream-id, needs-decode)` key of every
existing pad (new pads are only appended) or removes all pads
(teardown); and at creation time the flag is exactly the result of the
downstream capability probe against the raw decoded caps name for the
pad's media kind — no later operation rewrites it. -/
theorem needs_decoding_write_once (s : ElemState) (op : Op) :
    ((step s op).1.pads = [] ∨
      ∃ newKeys, ((step s op).1.pads).map padKey = s.pads.map padKey ++ newKeys) ∧
    (∀ mediaType sid nv na probes pad rest,
      createAndProbeSrcPad mediaType sid nv na probes = (some pad, rest) →
      pad.needsDecoding = (probes.headD none == some (rawCapsName mediaType))) := by
  constructor
  · cases op with
    | prepare => exact Or.inr ⟨[], by simp [step]⟩
    | handleOffer medias probes =>
      cases hpc : s.subscriberPc with
      | none => exact Or.inr ⟨[], by simp [step, hpc]⟩
      | some u =>
        refine Or.inr ⟨((handleOffer s.signaller (allCodecNames s) medias probes
          s.nVideoPads s.nAudioPads).pads).map padKey, ?_⟩
        simp [step, hpc]
    | padAdded mline filterReply =>
      cases hgs : getStreamId s.signaller (some mline) none with
      | error e => exact Or.inr ⟨[], by simp [step, hgs]⟩
      | ok o =>
        cases o with
        | none => exact Or.inr ⟨[], by simp [step, hgs]⟩
        | some sid =>
          cases hf : s.pads.find? (fun p => p.streamId == sid) with
          | none => exact Or.inr ⟨[], by simp [step, hgs, hf]⟩
          | some p =>
            exact Or.inr ⟨[], by simp [step, hgs, hf, setTargetFirst_map_padKey]⟩
    | onAnswerCreated res => exact Or.inr ⟨[], by simp [step]⟩
    | handleIce peerId mline cand => exact Or.inr ⟨[], by simp [step]⟩
    | unprepare => exact Or.inl (by simp [step])
  · intro mediaType sid nv na probes pad rest hcp
    unfold createAndProbeSrcPad at hcp
    by_cases hv : (mediaType == "video") = true
    · rw [if_pos hv, Prod.mk.injEq] at hcp
      obtain rfl := Option.some.inj hcp.1
      unfold rawCapsName
      rw [if_pos hv]
    · rw [if_neg hv] at hcp
      by_cases ha : (mediaType == "audio") = true
      · rw [if_pos ha, Prod.mk.injEq] at hcp
        obtain rfl := Option.some.inj hcp.1
        unfold rawCapsName
        rw [if_neg hv]
      · rw [if_neg ha, Prod.mk.injEq] at hcp
        exact absurd hcp.1 (by simp)

theorem needs_decoding_write_once_witness :
    ({ name := "video_0", streamId := "sid0", needsDecoding := true,
       target := none } : SrcPad).needsDecoding =
      ([some "video/x-raw"].headD none == some (rawCapsName "video")) :=
  (needs_decoding_write_once { signaller := { hasUriProperty := false, uri := none } }
      .unprepare).2
    "video" "sid0" 0 0 [some "video/x-raw"]
    { name := "video_0", streamId := "sid0", needsDecoding := true, target := none }
    (1, 0, []) (by decide)

/- ## C1 -/

theorem getStreamIdUnwrap_ok (sig : Signaller) (i : Nat)
    (hsig : sig.hasUriProperty = true → sig.uri.isSome = true) :
    ∃ sid, getStreamIdUnwrap sig i = .ok sid := by
  unfold getStreamIdUnwrap getStreamId
  by_cases hu : sig.hasUriProperty = true
  · cases hv : sig.uri with
    | none => exact absurd (hsig hu) (by rw [hv]; decide)
    | some u => exact ⟨deriveStreamId u i, by simp [hu, hv]⟩
  · have hu' : sig.hasUriProperty = false := by
      revert hu; cases sig.hasUriProperty <;> simp
    exact ⟨deriveStreamId sessionIdConst i, by simp [hu']⟩

theorem processMedia_effect (sig : Signaller) (codecNames : List String) (idx : Nat)
    (m : SDPMedia) (acc : OfferAcc) (hp : acc.panicked = false)
    (hsig : sig.hasUriProperty = true → sig.uri.isSome = true) :
    (processMedia sig codecNames idx m acc).panicked = false ∧
    (processMedia sig codecNames idx m acc).pads.length =
      acc.pads.length + (if lineAccepted codecNames m then 1 else 0) ∧
    (processMedia sig codecNames idx m acc).actions.countP isAddTransceiverA =
      acc.actions.countP isAddTransceiverA +
        (if lineAccepted codecNames m then 1 else 0) ∧
    (processMedia sig codecNames idx m acc).actions.countP isSetDoNackA =
      acc.actions.countP isSetDoNackA +
        (if lineAccepted codecNames m then 1 else 0) ∧
    (processMedia sig codecNames idx m acc).actions.countP isSetFecA =
      acc.actions.countP isSetFecA +
        (if lineAccepted codecNames m then 1 else 0) ∧
    (processMedia sig codecNames idx m acc).actions.countP isPanicA =
      acc.actions.countP isPanicA ∧
    (processMedia sig codecNames idx m acc).actions.countP isElementErrorA =
      acc.actions.countP isElementErrorA ∧
    (processMedia sig codecNames idx m acc).actions.countP isLogErrorA =
      acc.actions.countP isLogErrorA := by
  unfold processMedia
  rw [if_neg (by simp [hp])]
  cases hfm : filterMedia codecNames m with
  | nil =>
    have hacc : lineAccepted codecNames m = false := by
      unfold lineAccepted; rw [hfm]
    rw [hacc]
    simp [hp]
  | cons c cs =>
    obtain ⟨sid, hsid⟩ := getStreamIdUnwrap_ok sig idx hsig
    rw [hsid]
    by_cases hv : (c.media == "video") = true
    · have hacc : lineAccepted codecNames m = true := by
        unfold lineAccepted
        rw [hfm]
        show (c.media == "video" || c.media == "audio") = true
        rw [hv]
        rfl
      rw [hacc]
      simp only [createAndProbeSrcPad, if_pos hv]
      simp [hp, List.countP_append, List.countP_cons, isAddTransceiverA,
        isSetDoNackA, isSetFecA, isPanicA, isElementErrorA, isLogErrorA]
    · by_cases ha : (c.media == "audio") = true
      · have hacc : lineAccepted codecNames m = true := by
          unfold lineAccepted
          rw [hfm]
          show (c.media == "video" || c.media == "audio") = true
          rw [ha]
          simp
        rw [hacc]
        simp only [createAndProbeSrcPad, if_neg hv, if_pos ha]
        simp [hp, List.countP_append, List.countP_cons, isAddTransceiverA,
          isSetDoNackA, isSetFecA, isPanicA, isElementErrorA, isLogErrorA]
      · have hacc : lineAccepted codecNames m = false := by
          unfold lineAccepted
          rw [hfm]
          show (c.media == "video" || c.media == "audio") = false
          simp only [Bool.or_eq_false_iff]
          exact ⟨by revert hv; cases (c.media == "video") <;> simp,
            by revert ha; cases (c.media == "audio") <;> simp⟩
        rw [hacc]
        simp only [createAndProbeSrcPad, if_neg hv, if_neg ha]
        simp [hp]

theorem handleOfferGo_effect (sig : Signaller) (codecNames : List String)
    (hsig : sig.hasUriProperty = true → sig.uri.isSome = true)
    (medias : List SDPMedia) :
    ∀ (idx : Nat) (acc : OfferAcc), acc.panicked = false →
      (handleOfferGo sig codecNames idx medias acc).panicked = false ∧
      (handleOfferGo sig codecNames idx medias acc).pads.length =
        acc.pads.length +
          (medias.filter (fun m => lineAccepted codecNames m)).length ∧
      (handleOfferGo sig codecNames idx medias acc).actions.countP isAddTransceiverA =
        acc.actions.countP isAddTransceiverA +
          (medias.filter (fun m => lineAccepted codecNames m)).length ∧
      (handleOfferGo sig codecNames idx medias acc).actions.countP isSetDoNackA =
        acc.actions.countP isSetDoNackA +
          (medias.filter (fun m => lineAccepted codecNames m)).length ∧
      (handleOfferGo sig codecNames idx medias acc).actions.countP isSetFecA =
        acc.actions.countP isSetFecA +
          (medias.filter (fun m => lineAccepted codecNames m)).length ∧
      (handleOfferGo sig codecNames idx medias acc).actions.countP isPanicA =
        acc.actions.countP isPanicA ∧
      (handleOfferGo sig codecNames idx medias acc).actions.countP isElementErrorA =
        acc.actions.countP isElementErrorA ∧
      (handleOfferGo sig codecNames idx medias acc).actions.countP isLogErrorA =
        acc.actions.countP isLogErrorA := by
  induction medias with
  | nil =>
    intro idx acc hp
    simp [handleOfferGo, hp]
  | cons m rest ih =>
    intro idx acc hp
    have hm := processMedia_effect sig codecNames idx m acc hp hsig
    have hr := ih (idx + 1) (processMedia sig codecNames idx m acc) hm.1
    have hstep : handleOfferGo sig codecNames idx (m :: rest) acc =
        handleOfferGo sig codecNames (idx + 1) rest
          (processMedia sig codecNames idx m acc) := rfl
    rw [hstep]
    have hflt : ((m :: rest).filter (fun m => lineAccepted codecNames m)).length =
        (if lineAccepted codecNames m then 1 else 0) +
          (rest.filter (fun m => lineAccepted codecNames m)).length := by
      rw [List.filter_cons]
      by_cases hacc : lineAccepted codecNames m
      · simp [hacc, Nat.add_comm]
      · simp [hacc]
    refine ⟨hr.1, ?_, ?_, ?_, ?_, ?_, ?_, ?_⟩
    · rw [hr.2.1, hm.2.1, hflt]; omega
    · rw [hr.2.2.1, hm.2.2.1, hflt]; omega
    · rw [hr.2.2.2.1, hm.2.2.2.1, hflt]; omega
    · rw [hr.2.2.2.2.1, hm.2.2.2.2.1, hflt]; omega
    · rw [hr.2.2.2.2.2.1, hm.2.2.2.2.2.1]
    · rw [hr.2.2.2.2.2.2.1, hm.2.2.2.2.2.2.1]
    · rw [hr.2.2.2.2.2.2.2, hm.2.2.2.2.2.2.2]

theorem handleOffer_parts (sig : Signaller) (codecNames : List String)
    (medias : List SDPMedia) (probes : List (Option String)) (nv na : Nat) :
    (handleOffer sig codecNames medias probes nv na).pads =
      (handleOfferGo sig codecNames 0 medias
        { nv := nv, na := na, probes := probes }).pads ∧
    (handleOffer sig codecNames medias probes nv na).actions =
      (handleOfferGo sig codecNames 0 medias
          { nv := nv, na := na, probes := probes }).actions ++
        (if (handleOfferGo sig codecNames 0 medias
            { nv := nv, na := na, probes := probes }).panicked then []
         else [.setRemoteDescription .subscriber, .createAnswer]) :=
  ⟨rfl, rfl⟩

/-- C1 (amended): the number of track requests `handle_offer` creates —
source pads, receive-only transceivers, NACK and ULP-RED enablings —
equals the number of media lines that survive filtering (an allowed
encoding-name among the parsed payload formats and successful attribute
conversion) with a first surviving format of media kind audio or
video; the remaining lines are dropped without any error, panic or
error log. -/
theorem offer_track_request_count (sig : Signaller) (codecNames : List String)
    (medias : List SDPMedia) (probes : List (Option String)) (nv na : Nat)
    (hsig : sig.hasUriProperty = true → sig.uri.isSome = true) :
    (handleOffer sig codecNames medias probes nv na).pads.length =
      (medias.filter (fun m => lineAccepted codecNames m)).length ∧
    (handleOffer sig codecNames medias probes nv na).actions.countP isAddTransceiverA =
      (medias.filter (fun m => lineAccepted codecNames m)).length ∧
    (handleOffer sig codecNames medias probes nv na).actions.countP isSetDoNackA =
      (medias.filter (fun m => lineAccepted codecNames m)).length ∧
    (handleOffer sig codecNames medias probes nv na).actions.countP isSetFecA =
      (medias.filter (fun m => lineAccepted codecNames m)).length ∧
    (handleOffer sig codecNames medias probes nv na).actions.countP isPanicA = 0 ∧
    (handleOffer sig codecNames medias probes nv na).actions.countP isElementErrorA = 0 ∧
    (handleOffer sig codecNames medias probes nv na).actions.countP isLogErrorA = 0 := by
  have h := handleOfferGo_effect sig codecNames hsig medias 0
    { nv := nv, na := na, probes := probes } rfl
  have hparts := handleOffer_parts sig codecNames medias probes nv na
  have htail : ∀ pred : Effect → Bool,
      pred (.setRemoteDescription .subscriber) = false → pred .createAnswer = false →
      ((if (handleOfferGo sig codecNames 0 medias
          { nv := nv, na := na, probes := probes }).panicked then []
        else [Effect.setRemoteDescription .subscriber, .createAnswer]).countP pred) = 0 := by
    intro pred h1 h2
    rw [h.1]
    simp [List.countP_cons, h1, h2]
  refine ⟨?_, ?_, ?_, ?_, ?_, ?_, ?_⟩
  · rw [hparts.1, h.2.1]; simp
  · rw [hparts.2, List.countP_append, h.2.2.1, htail _ rfl rfl]; simp
  · rw [hparts.2, List.countP_append, h.2.2.2.1, htail _ rfl rfl]; simp
  · rw [hparts.2, List.countP_append, h.2.2.2.2.1, htail _ rfl rfl]; simp
  · rw [hparts.2, List.countP_append, h.2.2.2.2.2.1, htail _ rfl rfl]; simp
  · rw [hparts.2, List.countP_append, h.2.2.2.2.2.2.1, htail _ rfl rfl]; simp
  · rw [hparts.2, List.countP_append, h.2.2.2.2.2.2.2, htail _ rfl rfl]; simp

def narrowCodecsEx : List String := ["OPUS"]

/-- The claim's own acceptance predicate, stated from its words: the
media line has at least one payload format whose encoding-name is in
the configured codec-name union (no condition on media kind or on
attribute conversion). -/
def claimHasAllowedFormat (codecNames : List String) (m : SDPMedia) : Bool :=
  m.formats.any (fun f =>
    match parseI32 f with
    | none => false
    | some pt =>
      match List.lookup pt m.ptCaps with
      | none => false
      | some c =>
        match getStrField c.fields "encoding-name" with
        | none => false
        | some enc => codecNames.contains enc)

/-- A media line declaring an allowed codec but a non-audio/video media
kind (e.g. an `application` m-line carrying an `OPUS` rtpmap). -/
def applicationMediaEx : SDPMedia :=
  { formats := ["96"],
    ptCaps := [(96, { media := "application",
                      fields := [("encoding-name", .str "OPUS")] })],
    attrFields := [],
    attrsOk := true }

/-- An audio media line with an allowed codec whose attributes fail to
convert (`attributes_to_caps` returns an error, lines 720-727). -/
def badAttrsMediaEx : SDPMedia :=
  { formats := ["97"],
    ptCaps := [(97, { media := "audio",
                      fields := [("encoding-name", .str "OPUS")] })],
    attrFields := [],
    attrsOk := false }

def offerSigEx : Signaller := { hasUriProperty := false, uri := none }

/-- C1: refuted as stated — both media lines have a payload format whose
encoding-name is in the configured codec set (so the claim counts them,
M = 2), yet `handle_offer` creates no source pad and no transceiver for
either: `create_and_probe_src_pad` rejects the first line's
non-audio/video media kind, and the second line's formats are dropped
because `attributes_to_caps` fails on its attributes. -/
theorem offer_count_claim_refuted :
    (([applicationMediaEx, badAttrsMediaEx].filter
        (fun m => claimHasAllowedFormat narrowCodecsEx m)).length = 2) ∧
    (handleOffer offerSigEx narrowCodecsEx
      [applicationMediaEx, badAttrsMediaEx] [] 0 0).pads.length = 0 ∧
    (handleOffer offerSigEx narrowCodecsEx
      [applicationMediaEx, badAttrsMediaEx] [] 0 0).actions.countP
        isAddTransceiverA = 0 := by
  decide

/-- An ordinary audio media line with an allowed codec. -/
def opusMediaEx : SDPMedia :=
  { formats := ["96"],
    ptCaps := [(96, { media := "audio",
                      fields := [("encoding-name", .str "OPUS")] })],
    attrFields := [],
    attrsOk := true }

theorem offer_track_request_count_witness :
    (handleOffer offerSigEx narrowCodecsEx
        [opusMediaEx, applicationMediaEx, badAttrsMediaEx] [] 0 0).pads.length =
      (([opusMediaEx, applicationMediaEx, badAttrsMediaEx]).filter
        (fun m => lineAccepted narrowCodecsEx m)).length ∧
    (handleOffer offerSigEx narrowCodecsEx [opusMediaEx, applicationMediaEx, badAttrsMediaEx]
        [] 0 0).actions.countP isAddTransceiverA =
      (([opusMediaEx, applicationMediaEx, badAttrsMediaEx]).filter
        (fun m => lineAccepted narrowCodecsEx m)).length ∧
    (handleOffer offerSigEx narrowCodecsEx [opusMediaEx, applicationMediaEx, badAttrsMediaEx]
        [] 0 0).actions.countP isSetDoNackA =
      (([opusMediaEx, applicationMediaEx, badAttrsMediaEx]).filter
        (fun m => lineAccepted narrowCodecsEx m)).length ∧
    (handleOffer offerSigEx narrowCodecsEx [opusMediaEx, applicationMediaEx, badAttrsMediaEx]
        [] 0 0).actions.countP isSetFecA =
      (([opusMediaEx, applicationMediaEx, badAttrsMediaEx]).filter
        (fun m => lineAccepted narrowCodecsEx m)).length ∧
    (handleOffer offerSigEx narrowCodecsEx [opusMediaEx, applicationMediaEx, badAttrsMediaEx]
        [] 0 0).actions.countP isPanicA = 0 ∧
    (handleOffer offerSigEx narrowCodecsEx [opusMediaEx, applicationMediaEx, badAttrsMediaEx]
        [] 0 0).actions.countP isElementErrorA = 0 ∧
    (handleOffer offerSigEx narrowCodecsEx [opusMediaEx, applicationMediaEx, badAttrsMediaEx]
        [] 0 0).actions.countP isLogErrorA = 0 :=
  offer_track_request_count offerSigEx narrowCodecsEx
    [opusMediaEx, applicationMediaEx, badAttrsMediaEx] [] 0 0 (by decide)
